import Mathlib

/-!
Shallow embedding of the transaction-classification core of the
`eth_address_review` repository (files `src/etherscan_data.py` and
`src/transactions.py`), together with theorems settling the frozen claims
about its natural-language specification.

Conventions of the embedding:
* Raw explorer events (Python dicts) become the `RawTx` structure; every
  field that the code reads as a string stays a `String`.  The `timeStamp`
  field is kept as the integer it always holds (the code converts it with
  `int(...)` unconditionally and the data model declares it an integer).
* Python `float(s)` / `int(s)` are modelled by `pyFloatLit?` / `pyInt?`
  (literal parsers over the character list, returning `none` where Python
  raises `ValueError`); amounts are exact rationals (`ℚ`).
* Fallible code returns `Except PyErr`; `PyErr` names the Python exception
  that the corresponding source line can raise.
* `dict` lookups become association-list lookups (`List.lookup`):
  `d.get(k, k)` is `(m.lookup k).getD k`, `d[k]` is a lookup that fails
  with `PyErr.keyError`, `k in d` is `(m.lookup k).isSome`.
* Python's `sorted` (a stable sort) is modelled by `List.mergeSort`, which
  is stable.
-/

/-- One raw explorer event (a Python dict in the source).  A single record
type covers the five categories; fields that a category does not use are
simply never read for events of that category.  `fromAddr`/`toAddr` embed
the dict keys `"from"`/`"to"` (`from` is reserved in Lean). -/
structure RawTx where
  hash : String
  timeStamp : Nat
  fromAddr : String := ""
  toAddr : String := ""
  value : String := ""
  input : String := ""
  isError : String := ""
  functionName : String := ""
  tokenDecimal : String := ""
  tokenSymbol : String := ""
  tokenName : String := ""
  deriving Repr, DecidableEq

/-- The five per-category event lists held by `EtherscanData` after
`load_transactions` (the HTTP/cache retrieval itself is an excluded
collaborator; only the resulting lists matter to the core). -/
structure EtherscanData where
  txs : List RawTx
  internal_txs : List RawTx
  token_txs : List RawTx
  nft_txs : List RawTx
  erc1155_txs : List RawTx
  deriving Repr, DecidableEq

/-- `EtherscanData.all_txs` (property): concatenation of the five category
lists, in the source's order. -/
def EtherscanData.all_txs (d : EtherscanData) : List RawTx :=
  d.txs ++ d.internal_txs ++ d.token_txs ++ d.nft_txs ++ d.erc1155_txs

/-- One row of the summary table built by `get_summary` (the `datetime` and
`date` columns are derived display columns and are omitted; the optional
column-name prefixing changes only column labels, not values). -/
structure SummaryRow where
  hash : String
  timestamp : Nat
  normal : Nat
  has_internal : Nat
  erc20 : Nat
  erc721 : Nat
  erc1155 : Nat
  deriving Repr, DecidableEq

/-- The first loop of `get_summary`: walk `all_txs`, keeping the first-seen
`(hash, timeStamp)` pair for each hash; `seen` is the accumulated hash set. -/
def dedupByHash : List RawTx → List String → List (String × Nat)
  | [], _ => []
  | tx :: rest, seen =>
    if tx.hash ∈ seen then dedupByHash rest seen
    else (tx.hash, tx.timeStamp) :: dedupByHash rest (tx.hash :: seen)

/-- The per-category count loops of `get_summary`: for each event `tx` of the
category list, every row whose hash equals `tx.hash` has its count column
overwritten with the number of events of that category sharing `tx.hash`.
The row table is modelled as a function from hash to current count. -/
def countLoop (cat : List RawTx) (tbl : String → Nat) : String → Nat :=
  cat.foldl
    (fun acc tx => fun h =>
      if h = tx.hash then cat.countP (fun a => a.hash == tx.hash) else acc h)
    tbl

/-- Assemble one summary row for a deduplicated `(hash, timestamp)` pair,
reading each count column off the corresponding count table (all columns
are initialised to `0` before the count loops run). -/
def mkRow (d : EtherscanData) (p : String × Nat) : SummaryRow :=
  { hash := p.1
    timestamp := p.2
    normal := countLoop d.txs (fun _ => 0) p.1
    has_internal := countLoop d.internal_txs (fun _ => 0) p.1
    erc20 := countLoop d.token_txs (fun _ => 0) p.1
    erc721 := countLoop d.nft_txs (fun _ => 0) p.1
    erc1155 := countLoop d.erc1155_txs (fun _ => 0) p.1 }

/-- `EtherscanData.get_summary`: deduplicate `all_txs` by hash keeping the
first-seen timestamp, sort ascending by timestamp with Python's stable
`sorted` (modelled by the stable `List.mergeSort`), then attach the five
per-category counts. -/
def EtherscanData.get_summary (d : EtherscanData) : List SummaryRow :=
  ((dedupByHash d.all_txs []).mergeSort (fun a b => a.2 ≤ b.2)).map (mkRow d)

/-- Python exceptions that the embedded code can raise. -/
inductive PyErr where
  | valueError
  | keyError
  | indexError
  deriving Repr, DecidableEq

/-- Numeric value of a list of decimal digit characters. -/
def digitsToNat (cs : List Char) : Nat :=
  cs.foldl (fun n c => 10 * n + (c.toNat - 48)) 0

/-- Python `int(s)` on a string: optional sign followed by a nonempty digit
run (surrounding whitespace and underscore separators are not modelled; no
input in this code base uses them). -/
def pyInt? (s : String) : Option Int :=
  match s.toList with
  | [] => none
  | '+' :: rest =>
    if rest ≠ [] ∧ rest.all Char.isDigit then some (digitsToNat rest) else none
  | '-' :: rest =>
    if rest ≠ [] ∧ rest.all Char.isDigit then some (-(digitsToNat rest : Int))
    else none
  | cs =>
    if cs.all Char.isDigit then some (digitsToNat cs) else none

/-- Split a character list at every occurrence of `c` (the semantics of
Python `str.split(c)`): `splitOnChar c cs` is the list of separator-free
segments, always nonempty. -/
def splitOnChar (c : Char) : List Char → List (List Char)
  | [] => [[]]
  | d :: rest =>
    if d = c then [] :: splitOnChar c rest
    else
      match splitOnChar c rest with
      | [] => [[d]]
      | g :: gs => (d :: g) :: gs

/-- Mantissa of a Python float literal: digits with an optional decimal
point, at least one digit overall.  Returns the pair (integer formed by all
digits, power-of-ten exponent contributed by the fractional part). -/
def floatMantissa? (cs : List Char) : Option (Int × Int) :=
  match splitOnChar '.' cs with
  | [i] => if i ≠ [] ∧ i.all Char.isDigit then some (digitsToNat i, 0) else none
  | [i, f] =>
    if (i ≠ [] ∨ f ≠ []) ∧ i.all Char.isDigit ∧ f.all Char.isDigit then
      some (digitsToNat (i ++ f), -(f.length : Int))
    else none
  | _ => none

/-- Exponent part of a Python float literal: optional sign, nonempty digits. -/
def floatExp? (cs : List Char) : Option Int :=
  match cs with
  | [] => none
  | '+' :: rest =>
    if rest ≠ [] ∧ rest.all Char.isDigit then some (digitsToNat rest) else none
  | '-' :: rest =>
    if rest ≠ [] ∧ rest.all Char.isDigit then some (-(digitsToNat rest : Int))
    else none
  | ds =>
    if ds.all Char.isDigit then some (digitsToNat ds) else none

/-- Unsigned Python float literal: mantissa, optionally followed by an
`e`-exponent.  The result `(n, e)` denotes the exact rational `n * 10 ^ e`. -/
def floatUnsigned? (cs : List Char) : Option (Int × Int) :=
  match splitOnChar 'e' cs with
  | [m] => floatMantissa? m
  | [m, ex] =>
    match floatMantissa? m, floatExp? ex with
    | some p, some v => some (p.1, p.2 + v)
    | _, _ => none
  | _ => none

/-- Python `float(s)` on a finite decimal literal, as an exact pair
`(mantissa, exponent)` denoting `mantissa * 10 ^ exponent`.  The string is
lowercased first so that an upper-case exponent marker is accepted; the
non-finite spellings (`inf`, `nan`) and whitespace/underscores are not
modelled — no input in this code base uses them. -/
def pyFloatLit? (s : String) : Option (Int × Int) :=
  match s.toList.map Char.toLower with
  | '+' :: rest => floatUnsigned? rest
  | '-' :: rest => (floatUnsigned? rest).map (fun p => (-p.1, p.2))
  | cs => floatUnsigned? cs

/-- Exact rational denoted by a parsed float literal. -/
def ratOfLit (p : Int × Int) : ℚ :=
  (p.1 : ℚ) * 10 ^ p.2

/-- Python `float(s)` as an exact rational. -/
def pyFloat? (s : String) : Option ℚ :=
  (pyFloatLit? s).map ratOfLit

/-- Python `float(s)` in the `Except` monad: `ValueError` on parse failure. -/
def pyFloatE (s : String) : Except PyErr ℚ :=
  match pyFloat? s with
  | some v => .ok v
  | none => .error .valueError

/-- Python `int(s)` in the `Except` monad: `ValueError` on parse failure. -/
def pyIntE (s : String) : Except PyErr Int :=
  match pyInt? s with
  | some v => .ok v
  | none => .error .valueError

/-- Python `s.split(c)[0]` on a string: the text preceding the first
occurrence of `c` (the whole string when `c` is absent). -/
def splitHead (c : Char) (s : String) : String :=
  String.mk ((splitOnChar c s.toList).headD [])

/-- The helper `token_txs_by_tx_hash`: all ERC-20 token events of `eth_data`
whose hash equals `hash`.  Note that it reads only `token_txs` (the ERC-20
list), never `nft_txs` or `erc1155_txs`. -/
def token_txs_by_tx_hash (eth_data : EtherscanData) (hash : String) : List RawTx :=
  eth_data.token_txs.filter (fun a => a.hash == hash)

/-- The helper `internal_txs_by_tx_hash`: all internal events of `eth_data`
whose hash equals `hash`. -/
def internal_txs_by_tx_hash (eth_data : EtherscanData) (hash : String) : List RawTx :=
  eth_data.internal_txs.filter (fun a => a.hash == hash)

/-- The `AssetMovement` dataclass. -/
structure AssetMovement where
  name : String
  value : ℚ
  from_address : String
  to_address : String
  deriving Repr, DecidableEq

/-- The `TransactionResult` class with its constructor defaults. -/
structure TransactionResult where
  hash : String
  ts : Nat
  from_address : String := ""
  to_address : String := ""
  contract : String := ""
  function : String := ""
  external : Bool := false
  eth_movements : List AssetMovement := []
  tokens_movements : List AssetMovement := []
  error : Bool := false
  deriving Repr, DecidableEq

/-- `TransactionResult.add_token_movement`. -/
def TransactionResult.add_token_movement (r : TransactionResult)
    (token_name : String) (value : ℚ)
    (from_address to_address : String) : TransactionResult :=
  { r with tokens_movements :=
      r.tokens_movements ++ [⟨token_name, value, from_address, to_address⟩] }

/-- `TransactionResult.add_eth_movement`. -/
def TransactionResult.add_eth_movement (r : TransactionResult) (value : ℚ)
    (from_address to_address : String) : TransactionResult :=
  { r with eth_movements :=
      r.eth_movements ++ [⟨"ETH", value, from_address, to_address⟩] }

/-- Python `d[k]` on a string-keyed dict: the value when the key is present,
`KeyError` otherwise. -/
def dictGet (m : List (String × String)) (k : String) : Except PyErr String :=
  match m.lookup k with
  | some n => .ok n
  | none => .error PyErr.keyError

/-- The `TransactionExplorer` object state: the two `EtherscanData` sources
(primary address and DSProxy) and the two configuration dicts. -/
structure TransactionExplorer where
  address_data : EtherscanData
  ds_proxy_data : EtherscanData
  address_book : List (String × String)
  known_contracts : List (String × String)

/-- `TransactionExplorer.get_address_name`: `self.address_book.get(hash, hash)`. -/
def TransactionExplorer.get_address_name (e : TransactionExplorer)
    (hash : String) : String :=
  (e.address_book.lookup hash).getD hash

/-- Loop body of the token-movement loops at `transactions.py` lines 90-97
and 154-161 (they are textually identical in the source): normalize one
token event and append it as a token movement. -/
def token_movement_step (e : TransactionExplorer) (r : TransactionResult)
    (token_tx : RawTx) : Except PyErr TransactionResult := do
  let value ← pyFloatE token_tx.value
  let d ← pyIntE token_tx.tokenDecimal
  let value := value / (10 : ℚ) ^ d
  let token_name := token_tx.tokenSymbol
  let token_from := e.get_address_name token_tx.fromAddr
  let token_to := e.get_address_name token_tx.toAddr
  .ok (r.add_token_movement token_name value token_from token_to)

/-- Loop body of the internal-movement loops at lines 100-104 and 163-167:
normalize one internal event (value divided by `10 ** 18`) and append it as
an ETH movement. -/
def internal_movement_step (e : TransactionExplorer) (r : TransactionResult)
    (internal_tx : RawTx) : Except PyErr TransactionResult := do
  let value ← pyFloatE internal_tx.value
  let value := value / (10 : ℚ) ^ (18 : ℕ)
  let internal_from := e.get_address_name internal_tx.fromAddr
  let internal_to := e.get_address_name internal_tx.toAddr
  .ok (r.add_eth_movement value internal_from internal_to)

/-- Loop body of the DSProxy token loop at lines 169-182: normalize one
proxy token event, but skip it when the resolved sender — or, failing that,
the resolved recipient — is the `"ADDRESS_OF_INTEREST"` display name.  Note
the value is parsed before the skip tests, exactly as in the source. -/
def ds_token_movement_step (e : TransactionExplorer) (r : TransactionResult)
    (token_tx : RawTx) : Except PyErr TransactionResult := do
  let value ← pyFloatE token_tx.value
  let d ← pyIntE token_tx.tokenDecimal
  let value := value / (10 : ℚ) ^ d
  let token_name := token_tx.tokenSymbol
  let from_address := e.get_address_name token_tx.fromAddr
  if from_address = "ADDRESS_OF_INTEREST" then .ok r
  else
    let to_address := e.get_address_name token_tx.toAddr
    if to_address = "ADDRESS_OF_INTEREST" then .ok r
    else .ok (r.add_token_movement token_name value from_address to_address)

/-- `TransactionExplorer.process_contract_transaction` (lines 126-183).
The log-message strings of the source are pure console output and are not
modelled; everything else is step for step. -/
def TransactionExplorer.process_contract_transaction (e : TransactionExplorer)
    (tx_row : SummaryRow) (tx : RawTx) (result : TransactionResult) :
    Except PyErr TransactionResult := do
  let contract_name ← dictGet e.address_book tx.toAddr
  let result := { result with contract := contract_name }
  if contract_name = "Maker: Proxy Registry" then .ok result
  else do
    let func_name := splitHead '(' tx.functionName
    let result := { result with function := func_name }
    let isErr ← pyIntE tx.isError
    if isErr > 0 then .ok { result with error := true }
    else do
      let value ← pyFloatE tx.value
      let value := value / (10 : ℚ) ^ (18 : ℕ)
      let result :=
        if value > 0 then
          result.add_eth_movement value
            (e.get_address_name tx.fromAddr) (e.get_address_name tx.toAddr)
        else result
      let token_txs := token_txs_by_tx_hash e.address_data tx_row.hash
      let internal_txs := internal_txs_by_tx_hash e.address_data tx_row.hash
      let ds_token_txs := token_txs_by_tx_hash e.ds_proxy_data tx_row.hash
      let result ← token_txs.foldlM (token_movement_step e) result
      let result ← internal_txs.foldlM (internal_movement_step e) result
      let result ← ds_token_txs.foldlM (ds_token_movement_step e) result
      .ok result

/-- `TransactionExplorer.process_transaction` (lines 84-124).  The unused
parameter `n` is dropped.  The Python function can return a result, return
`None` (the bare `return` on an unknown contract), or raise — hence the
`Except PyErr (Option TransactionResult)` type. -/
def TransactionExplorer.process_transaction (e : TransactionExplorer)
    (tx_row : SummaryRow) : Except PyErr (Option TransactionResult) := do
  let hash := tx_row.hash
  let result : TransactionResult := { hash := tx_row.hash, ts := tx_row.timestamp }
  if tx_row.normal < 1 then do
    let result := { result with external := true }
    let token_txs := token_txs_by_tx_hash e.address_data tx_row.hash
    let result ← token_txs.foldlM (token_movement_step e) result
    let internal_txs := internal_txs_by_tx_hash e.address_data tx_row.hash
    let result ← internal_txs.foldlM (internal_movement_step e) result
    .ok (some result)
  else
    match e.address_data.txs.filter (fun a => a.hash == hash) with
    | [] => .error PyErr.indexError
    | tx :: _ => do
      let result :=
        { result with
            from_address := e.get_address_name tx.fromAddr
            to_address := e.get_address_name tx.toAddr }
      if tx.input = "0x" then do
        let value ← pyFloatE tx.value
        let value := value / (10 : ℚ) ^ (18 : ℕ)
        .ok (some (result.add_eth_movement value
          (e.get_address_name tx.fromAddr) (e.get_address_name tx.toAddr)))
      else if e.get_address_name tx.fromAddr = "ADDRESS_OF_INTEREST" then
        if (e.known_contracts.lookup tx.toAddr).isNone then
          .ok none
        else do
          let r ← e.process_contract_transaction tx_row tx result
          .ok (some r)
      else .ok (some result)

/-- Sequence a list of fallible normalizations, stopping at the first
failure (the `Except`-monad `mapM`, written out so that it unfolds by plain
reduction). -/
def mapExcept (f : RawTx → Except PyErr AssetMovement) :
    List RawTx → Except PyErr (List AssetMovement)
  | [] => .ok []
  | t :: l =>
    match f t with
    | .error err => .error err
    | .ok m =>
      match mapExcept f l with
      | .error err => .error err
      | .ok ms => .ok (m :: ms)

/-- Normalized form of one token event: the asset movement that the token
loops append (symbol, `value / 10 ** tokenDecimal`, resolved names), in the
`Except` monad because the numeric fields may fail to parse. -/
def normalizeTokenTx (e : TransactionExplorer) (t : RawTx) :
    Except PyErr AssetMovement :=
  match pyFloatE t.value with
  | .error err => .error err
  | .ok value =>
    match pyIntE t.tokenDecimal with
    | .error err => .error err
    | .ok d =>
      .ok ⟨t.tokenSymbol, value / (10 : ℚ) ^ d,
           e.get_address_name t.fromAddr, e.get_address_name t.toAddr⟩

/-- Normalized form of one internal event: `value / 10 ** 18` as an ETH
movement with resolved names. -/
def normalizeInternalTx (e : TransactionExplorer) (t : RawTx) :
    Except PyErr AssetMovement :=
  match pyFloatE t.value with
  | .error err => .error err
  | .ok value =>
    .ok ⟨"ETH", value / (10 : ℚ) ^ (18 : ℕ),
         e.get_address_name t.fromAddr, e.get_address_name t.toAddr⟩

/-- Total variant of `normalizeTokenTx` for events whose numeric fields are
known to parse (unparseable fields read as `0`). -/
def normTokenD (e : TransactionExplorer) (t : RawTx) : AssetMovement :=
  ⟨t.tokenSymbol,
   ((pyFloat? t.value).getD 0) / (10 : ℚ) ^ ((pyInt? t.tokenDecimal).getD 0),
   e.get_address_name t.fromAddr, e.get_address_name t.toAddr⟩

/-- Total variant of `normalizeInternalTx` for events whose value parses. -/
def normInternalD (e : TransactionExplorer) (t : RawTx) : AssetMovement :=
  ⟨"ETH", ((pyFloat? t.value).getD 0) / (10 : ℚ) ^ (18 : ℕ),
   e.get_address_name t.fromAddr, e.get_address_name t.toAddr⟩

/-- Skip test of the DSProxy token loop, on a normalized movement: the
movement is kept when neither resolved end is `"ADDRESS_OF_INTEREST"`. -/
def dsKeep (m : AssetMovement) : Bool :=
  !(m.from_address == "ADDRESS_OF_INTEREST")
    && !(m.to_address == "ADDRESS_OF_INTEREST")

/-- Empty event store, used as the DSProxy side when it is irrelevant. -/
def noData : EtherscanData := ⟨[], [], [], [], []⟩

/-- Event store for the C1 counterexample: a single ERC-721 event and no
ERC-20 event for hash `"0xc1"`. -/
def C1cexData : EtherscanData :=
  { txs := [], internal_txs := [], token_txs := [],
    nft_txs := [{ hash := "0xc1", timeStamp := 10, fromAddr := "0xa",
                  toAddr := "0xb", value := "1", tokenDecimal := "0",
                  tokenSymbol := "NFT" }],
    erc1155_txs := [] }

def C1cexExp : TransactionExplorer := ⟨C1cexData, noData, [], []⟩

def C1cexRow : SummaryRow := ⟨"0xc1", 10, 0, 0, 0, 1, 0⟩

/-- Event store for the C1 witness: one ERC-20 and one internal event. -/
def C1wData : EtherscanData :=
  { txs := [],
    internal_txs := [{ hash := "0xc1w", timeStamp := 20, fromAddr := "0xa",
                       toAddr := "0xb", value := "3000000000000000000" }],
    token_txs := [{ hash := "0xc1w", timeStamp := 20, fromAddr := "0xa",
                    toAddr := "0xb", value := "1500000", tokenDecimal := "6",
                    tokenSymbol := "USDC" }],
    nft_txs := [], erc1155_txs := [] }

def C1wExp : TransactionExplorer := ⟨C1wData, noData, [], []⟩

def C1wRow : SummaryRow := ⟨"0xc1w", 20, 0, 1, 1, 0, 0⟩

def C2book : List (String × String) :=
  [("0xme", "ADDRESS_OF_INTEREST"), ("0xctr", "SomeContract")]

/-- Primary-address store for the C2 witness: one ERC-20 event. -/
def C2primData : EtherscanData :=
  { txs := [], internal_txs := [],
    token_txs := [{ hash := "0xc2", timeStamp := 30, fromAddr := "0xu",
                    toAddr := "0xv", value := "300", tokenDecimal := "2",
                    tokenSymbol := "TKC" }],
    nft_txs := [], erc1155_txs := [] }

/-- DSProxy store for the C2 witness: one proxy token event whose sender
resolves to the address of interest (skipped) and one between third
parties (kept). -/
def C2dsData : EtherscanData :=
  { txs := [], internal_txs := [],
    token_txs := [
      { hash := "0xc2", timeStamp := 30, fromAddr := "0xme",
        toAddr := "0xproxy", value := "100", tokenDecimal := "2",
        tokenSymbol := "TKA" },
      { hash := "0xc2", timeStamp := 30, fromAddr := "0xq",
        toAddr := "0xw", value := "200", tokenDecimal := "2",
        tokenSymbol := "TKB" }],
    nft_txs := [], erc1155_txs := [] }

def C2exp : TransactionExplorer :=
  ⟨C2primData, C2dsData, C2book, [("0xctr", "x")]⟩

def C2tx : RawTx :=
  { hash := "0xc2", timeStamp := 30, fromAddr := "0xme", toAddr := "0xctr",
    value := "0", input := "0xabc", isError := "0",
    functionName := "doIt(uint256)" }

def C2r0 : TransactionResult :=
  ⟨"0xc2", 30, "ADDRESS_OF_INTEREST", "SomeContract", "", "", false, [], [], false⟩

def C2row : SummaryRow := ⟨"0xc2", 30, 1, 0, 1, 0, 0⟩

def C3tx : RawTx :=
  { hash := "0xc3", timeStamp := 40, fromAddr := "0xme", toAddr := "0xyou",
    value := "2000000000000000000", input := "0x" }

/-- Event store for the C3 witness: a plain transfer plus an ERC-20 event
sharing its hash (which the plain-transfer branch must ignore). -/
def C3data : EtherscanData :=
  { txs := [C3tx], internal_txs := [],
    token_txs := [{ hash := "0xc3", timeStamp := 40, fromAddr := "0xa",
                    toAddr := "0xb", value := "7", tokenDecimal := "0",
                    tokenSymbol := "TKD" }],
    nft_txs := [], erc1155_txs := [] }

def C3exp : TransactionExplorer := ⟨C3data, noData, [], []⟩

def C3row : SummaryRow := ⟨"0xc3", 40, 1, 0, 1, 0, 0⟩

def C4tx : RawTx :=
  { hash := "0xc4", timeStamp := 50, fromAddr := "0xme", toAddr := "0xctr",
    value := "0", input := "0xabc", isError := "0", functionName := "f(u)" }

def C4data : EtherscanData :=
  { txs := [C4tx], internal_txs := [], token_txs := [], nft_txs := [],
    erc1155_txs := [] }

/-- C4 counterexample explorer: the recipient is a known contract but is
absent from the address book. -/
def C4cexExp : TransactionExplorer :=
  ⟨C4data, noData, [("0xme", "ADDRESS_OF_INTEREST")],
   [("0xctr", "Maker: Proxy Registry")]⟩

def C4row : SummaryRow := ⟨"0xc4", 50, 1, 0, 0, 0, 0⟩

/-- C4 witness explorer: the address book maps the recipient to the
pass-through registry name. -/
def C4wExp : TransactionExplorer :=
  ⟨C4data, noData,
   [("0xme", "ADDRESS_OF_INTEREST"), ("0xctr", "Maker: Proxy Registry")],
   [("0xctr", "Maker: Proxy Registry")]⟩

def C4r0 : TransactionResult :=
  ⟨"0xc4", 50, "ADDRESS_OF_INTEREST", "0xctr", "", "", false, [], [], false⟩

def C5tx : RawTx :=
  { hash := "0xc5", timeStamp := 60, fromAddr := "0xme", toAddr := "0xctr",
    value := "5", input := "0xdead", isError := "1",
    functionName := "f(uint256)" }

def C5data : EtherscanData :=
  { txs := [C5tx], internal_txs := [], token_txs := [], nft_txs := [],
    erc1155_txs := [] }

def C5exp : TransactionExplorer :=
  ⟨C5data, noData,
   [("0xme", "ADDRESS_OF_INTEREST"), ("0xctr", "MyContract")],
   [("0xctr", "c")]⟩

def C5row : SummaryRow := ⟨"0xc5", 60, 1, 0, 0, 0, 0⟩

/-- The result the C5 witness path produces: error flag set, names and
contract resolved, function extracted, no movements. -/
def C5res : TransactionResult :=
  ⟨"0xc5", 60, "ADDRESS_OF_INTEREST", "MyContract", "MyContract", "f",
   false, [], [], true⟩

def C6tx : RawTx :=
  { hash := "0xc6", timeStamp := 70, fromAddr := "0xme", toAddr := "0xnew",
    value := "9", input := "0xdead", isError := "0", functionName := "g()" }

def C6data : EtherscanData :=
  { txs := [C6tx], internal_txs := [], token_txs := [], nft_txs := [],
    erc1155_txs := [] }

def C6exp : TransactionExplorer :=
  ⟨C6data, noData, [("0xme", "ADDRESS_OF_INTEREST")], []⟩

def C6row : SummaryRow := ⟨"0xc6", 70, 1, 0, 0, 0, 0⟩

/-- Event store for the C7 witness: one normal event and one ERC-20 event
sharing the hash `"0xc7"`. -/
def C7data : EtherscanData :=
  { txs := [{ hash := "0xc7", timeStamp := 80, fromAddr := "0xa",
              toAddr := "0xb", value := "1" }],
    internal_txs := [],
    token_txs := [{ hash := "0xc7", timeStamp := 80, fromAddr := "0xa",
                    toAddr := "0xb", value := "2", tokenDecimal := "0",
                    tokenSymbol := "TKE" }],
    nft_txs := [], erc1155_txs := [] }

def C8data : EtherscanData := ⟨[], [], [], [], []⟩

def C8exp : TransactionExplorer := ⟨C8data, noData, [], []⟩

/-- A ledger row claiming a normal event for a hash with no raw events. -/
def C8row : SummaryRow := ⟨"0xc8", 85, 1, 0, 0, 0, 0⟩

/-- A token event whose `tokenDecimal` is not parseable as an integer. -/
def C9bad : RawTx :=
  { hash := "0xc9", timeStamp := 90, fromAddr := "0xa", toAddr := "0xb",
    value := "5", tokenDecimal := "x", tokenSymbol := "BAD" }

/-- Event store for the C9 counterexample: the only token event of the hash
has an unparseable `tokenDecimal`. -/
def C9data : EtherscanData :=
  { txs := [], internal_txs := [], token_txs := [C9bad],
    nft_txs := [], erc1155_txs := [] }

def C9exp : TransactionExplorer := ⟨C9data, noData, [], []⟩

def C9row : SummaryRow := ⟨"0xc9", 90, 0, 0, 1, 0, 0⟩

/-- A token event whose `value` is not an integer literal but is a valid
float literal, so Python `float(value)` succeeds. -/
def C9t15 : RawTx :=
  { hash := "0xz", timeStamp := 0, fromAddr := "0xa", toAddr := "0xb",
    value := "1.5", tokenDecimal := "0", tokenSymbol := "TKN" }

def C10tx : RawTx :=
  { hash := "0xca", timeStamp := 100, fromAddr := "0xme", toAddr := "0xyou",
    value := "0", input := "0x" }

def C10data : EtherscanData :=
  { txs := [C10tx], internal_txs := [], token_txs := [], nft_txs := [],
    erc1155_txs := [] }

def C10exp : TransactionExplorer := ⟨C10data, noData, [("0xme", "Alice")], []⟩

def C10row : SummaryRow := ⟨"0xca", 100, 1, 0, 0, 0, 0⟩

/-- An internal event whose `value` is not parseable as a float literal. -/
def C9badv : RawTx :=
  { hash := "0xc9i", timeStamp := 91, fromAddr := "0xa", toAddr := "0xb",
    value := "abc" }

/-- A contract call over the hash carrying the malformed token event, used
to exercise the abort inside contract decomposition. -/
def C9tx2 : RawTx :=
  { hash := "0xc9", timeStamp := 90, fromAddr := "0xme", toAddr := "0xctr",
    value := "0", input := "0xab", isError := "0", functionName := "f()" }

/-- Explorer for the contract-decomposition half of the C9 witness: the
primary token list for the hash holds the malformed event. -/
def C9pctExp : TransactionExplorer :=
  ⟨C9data, noData, [("0xctr", "C")], [("0xctr", "C")]⟩

def C9r0 : TransactionResult :=
  ⟨"0xc9", 90, "", "", "", "", false, [], [], false⟩

lemma except_bind_ok {α β : Type} (a : α) (f : α → Except PyErr β) :
    (Except.ok a : Except PyErr α) >>= f = f a := rfl

lemma except_bind_error {α β : Type} (err : PyErr) (f : α → Except PyErr β) :
    (Except.error err : Except PyErr α) >>= f = .error err := rfl

lemma token_movement_step_eq (e : TransactionExplorer) (r : TransactionResult)
    (t : RawTx) :
    token_movement_step e r t =
      match normalizeTokenTx e t with
      | .ok m => .ok (r.add_token_movement m.name m.value m.from_address m.to_address)
      | .error err => .error err := by
  unfold token_movement_step normalizeTokenTx
  cases hv : pyFloatE t.value with
  | error err => rfl
  | ok v =>
    cases hd : pyIntE t.tokenDecimal with
    | error err => rfl
    | ok d => rfl

lemma internal_movement_step_eq (e : TransactionExplorer)
    (r : TransactionResult) (t : RawTx) :
    internal_movement_step e r t =
      match normalizeInternalTx e t with
      | .ok m => .ok (r.add_eth_movement m.value m.from_address m.to_address)
      | .error err => .error err := by
  unfold internal_movement_step normalizeInternalTx
  cases hv : pyFloatE t.value with
  | error err => rfl
  | ok v => rfl

lemma ds_token_movement_step_eq (e : TransactionExplorer)
    (r : TransactionResult) (t : RawTx) :
    ds_token_movement_step e r t =
      match normalizeTokenTx e t with
      | .ok m =>
        if dsKeep m then
          .ok (r.add_token_movement m.name m.value m.from_address m.to_address)
        else .ok r
      | .error err => .error err := by
  unfold ds_token_movement_step normalizeTokenTx dsKeep
  cases hv : pyFloatE t.value with
  | error err => rfl
  | ok v =>
    cases hd : pyIntE t.tokenDecimal with
    | error err => rfl
    | ok d =>
      by_cases hf : e.get_address_name t.fromAddr = "ADDRESS_OF_INTEREST"
      · simp only [hf]
        simp [dsKeep]
        rfl
      · by_cases ht : e.get_address_name t.toAddr = "ADDRESS_OF_INTEREST"
        · simp only [ht]
          simp [dsKeep, hf]
          rfl
        · simp [dsKeep, hf, ht]
          rfl

/-- The token loop appends exactly the normalized token events, in order,
stopping at the first parse failure. -/
lemma foldlM_token_movement_step (e : TransactionExplorer) :
    ∀ (l : List RawTx) (r : TransactionResult),
    l.foldlM (token_movement_step e) r =
      match mapExcept (normalizeTokenTx e) l with
      | .ok ms => .ok { r with tokens_movements := r.tokens_movements ++ ms }
      | .error err => .error err
  | [], r => by simp only [mapExcept, List.append_nil]; rfl
  | t :: l, r => by
    rw [List.foldlM_cons, token_movement_step_eq]
    cases hm : normalizeTokenTx e t with
    | error err => simp only [mapExcept, hm]; rfl
    | ok m =>
      have ih := foldlM_token_movement_step e l
        (r.add_token_movement m.name m.value m.from_address m.to_address)
      simp only [mapExcept, hm]
      cases hms : mapExcept (normalizeTokenTx e) l with
      | error err =>
        simp only [hms] at ih
        simpa [hms] using ih
      | ok ms =>
        simp only [hms] at ih
        simpa [hms, TransactionResult.add_token_movement] using ih

lemma normalizeInternalTx_name (e : TransactionExplorer) (t : RawTx)
    (m : AssetMovement) (h : normalizeInternalTx e t = .ok m) :
    m = ⟨"ETH", m.value, m.from_address, m.to_address⟩ := by
  unfold normalizeInternalTx at h
  cases hv : pyFloatE t.value with
  | error err => rw [hv] at h; cases h
  | ok v =>
    rw [hv] at h
    cases h
    rfl

/-- The internal loop appends exactly the normalized internal events. -/
lemma foldlM_internal_movement_step (e : TransactionExplorer) :
    ∀ (l : List RawTx) (r : TransactionResult),
    l.foldlM (internal_movement_step e) r =
      match mapExcept (normalizeInternalTx e) l with
      | .ok ms => .ok { r with eth_movements := r.eth_movements ++ ms }
      | .error err => .error err
  | [], r => by simp only [mapExcept, List.append_nil]; rfl
  | t :: l, r => by
    rw [List.foldlM_cons, internal_movement_step_eq]
    cases hm : normalizeInternalTx e t with
    | error err => simp only [mapExcept, hm]; rfl
    | ok m =>
      have ih := foldlM_internal_movement_step e l
        (r.add_eth_movement m.value m.from_address m.to_address)
      simp only [mapExcept, hm]
      cases hms : mapExcept (normalizeInternalTx e) l with
      | error err =>
        simp only [hms] at ih
        simpa [hms] using ih
      | ok ms =>
        simp only [hms] at ih
        rw [normalizeInternalTx_name e t m hm]
        simpa [hms, TransactionResult.add_eth_movement] using ih

/-- The DSProxy token loop appends exactly the normalized proxy token events
that pass the skip test `dsKeep`; every event is still parsed first, so a
parse failure aborts the loop even when the event would then be skipped. -/
lemma foldlM_ds_token_movement_step (e : TransactionExplorer) :
    ∀ (l : List RawTx) (r : TransactionResult),
    l.foldlM (ds_token_movement_step e) r =
      match mapExcept (normalizeTokenTx e) l with
      | .ok ms => .ok { r with tokens_movements :=
          r.tokens_movements ++ ms.filter dsKeep }
      | .error err => .error err
  | [], r => by simp only [mapExcept, List.filter_nil, List.append_nil]; rfl
  | t :: l, r => by
    rw [List.foldlM_cons, ds_token_movement_step_eq]
    cases hm : normalizeTokenTx e t with
    | error err => simp only [mapExcept, hm]; rfl
    | ok m =>
      simp only [mapExcept, hm]
      by_cases hk : dsKeep m
      · have ih := foldlM_ds_token_movement_step e l
          (r.add_token_movement m.name m.value m.from_address m.to_address)
        rw [if_pos hk]
        cases hms : mapExcept (normalizeTokenTx e) l with
        | error err =>
          simp only [hms] at ih
          simpa [hms] using ih
        | ok ms =>
          simp only [hms] at ih
          simpa [hms, List.filter_cons, hk,
            TransactionResult.add_token_movement] using ih
      · have ih := foldlM_ds_token_movement_step e l r
        rw [if_neg hk]
        cases hms : mapExcept (normalizeTokenTx e) l with
        | error err =>
          simp only [hms] at ih
          simpa [hms] using ih
        | ok ms =>
          simp only [hms] at ih
          simpa [hms, List.filter_cons, hk] using ih

/-- When every event in the list has parseable numeric fields, normalizing
the list succeeds and yields exactly the pointwise normal forms. -/
lemma mapExcept_token_ok (e : TransactionExplorer) (l : List RawTx)
    (hp : ∀ t ∈ l, (pyFloat? t.value).isSome ∧ (pyInt? t.tokenDecimal).isSome) :
    mapExcept (normalizeTokenTx e) l = .ok (l.map (normTokenD e)) := by
  induction l with
  | nil => rfl
  | cons t l ih =>
    obtain ⟨hv, hd⟩ := hp t (List.mem_cons_self t l)
    rcases Option.isSome_iff_exists.mp hv with ⟨v, hv'⟩
    rcases Option.isSome_iff_exists.mp hd with ⟨d, hd'⟩
    have ihl := ih (fun a ha => hp a (List.mem_cons_of_mem t ha))
    simp only [mapExcept, normalizeTokenTx, pyFloatE, pyIntE, hv', hd', ihl,
      List.map_cons, normTokenD, Option.getD_some]

/-- When every event in the list has a parseable value, normalizing the
internal events succeeds and yields exactly the pointwise normal forms. -/
lemma mapExcept_internal_ok (e : TransactionExplorer) (l : List RawTx)
    (hp : ∀ t ∈ l, (pyFloat? t.value).isSome) :
    mapExcept (normalizeInternalTx e) l = .ok (l.map (normInternalD e)) := by
  induction l with
  | nil => rfl
  | cons t l ih =>
    rcases Option.isSome_iff_exists.mp (hp t (List.mem_cons_self t l)) with ⟨v, hv'⟩
    have ihl := ih (fun a ha => hp a (List.mem_cons_of_mem t ha))
    simp only [mapExcept, normalizeInternalTx, pyFloatE, hv', ihl,
      List.map_cons, normInternalD, Option.getD_some]

/-- The only failure token normalization can produce is `ValueError`. -/
lemma normalizeTokenTx_error (e : TransactionExplorer) (t : RawTx)
    (err : PyErr) (h : normalizeTokenTx e t = .error err) :
    err = PyErr.valueError := by
  unfold normalizeTokenTx pyFloatE pyIntE at h
  cases hv : pyFloat? t.value with
  | none => rw [hv] at h; cases h; rfl
  | some v =>
    rw [hv] at h
    cases hd : pyInt? t.tokenDecimal with
    | none => rw [hd] at h; cases h; rfl
    | some d => rw [hd] at h; cases h

/-- An unparseable `value` or `tokenDecimal` makes token normalization fail
with `ValueError`. -/
lemma normalizeTokenTx_error_of (e : TransactionExplorer) (t : RawTx)
    (h : pyFloat? t.value = none ∨ pyInt? t.tokenDecimal = none) :
    normalizeTokenTx e t = .error PyErr.valueError := by
  unfold normalizeTokenTx pyFloatE pyIntE
  rcases h with h | h
  · rw [h]
  · cases hv : pyFloat? t.value with
    | none => rfl
    | some v => rw [h]

/-- A single failing normalization makes the whole sequence fail with
`ValueError` (the loop stops at the first unparseable event). -/
lemma mapExcept_token_error (e : TransactionExplorer) :
    ∀ (l : List RawTx), (∃ t ∈ l, ∃ err, normalizeTokenTx e t = .error err) →
    mapExcept (normalizeTokenTx e) l = .error PyErr.valueError
  | [], h => by simp at h
  | a :: l, h => by
    cases hna : normalizeTokenTx e a with
    | error err =>
      have := normalizeTokenTx_error e a err hna
      subst this
      simp only [mapExcept, hna]
    | ok m =>
      rcases h with ⟨t, ht, err, herr⟩
      rcases List.mem_cons.mp ht with rfl | ht'
      · rw [hna] at herr; cases herr
      · have := mapExcept_token_error e l ⟨t, ht', err, herr⟩
        simp only [mapExcept, hna, this]

/-- Branch equation for `process_transaction` on a ledger row with no
normal-category event (`normal < 1`): the external-inbound branch. -/
lemma process_transaction_external (e : TransactionExplorer)
    (row : SummaryRow) (h : row.normal < 1) :
    e.process_transaction row =
      match mapExcept (normalizeTokenTx e)
          (token_txs_by_tx_hash e.address_data row.hash) with
      | .error err => .error err
      | .ok tms =>
        match mapExcept (normalizeInternalTx e)
            (internal_txs_by_tx_hash e.address_data row.hash) with
        | .error err => .error err
        | .ok ems => .ok (some
            { hash := row.hash, ts := row.timestamp,
              from_address := "", to_address := "",
              contract := "", function := "", external := true,
              eth_movements := ems, tokens_movements := tms,
              error := false }) := by
  unfold TransactionExplorer.process_transaction
  rw [if_pos h]
  dsimp only
  rw [foldlM_token_movement_step]
  cases htm : mapExcept (normalizeTokenTx e)
      (token_txs_by_tx_hash e.address_data row.hash) with
  | error err => rfl
  | ok tms =>
    show (List.foldlM (internal_movement_step e) _ _ : Except PyErr _).bind _ = _
    rw [foldlM_internal_movement_step]
    cases hem : mapExcept (normalizeInternalTx e)
        (internal_txs_by_tx_hash e.address_data row.hash) with
    | error err => rfl
    | ok ems => rfl

/-- A recipient absent from the address book makes contract decomposition
fail at its very first line (`self.address_book[tx["to"]]`, a `KeyError`),
even when the recipient is a known contract. -/
lemma pct_keyError (e : TransactionExplorer) (row : SummaryRow) (tx : RawTx)
    (r0 : TransactionResult)
    (h : e.address_book.lookup tx.toAddr = none) :
    e.process_contract_transaction row tx r0 = .error PyErr.keyError := by
  unfold TransactionExplorer.process_contract_transaction
  simp only [dictGet, h]
  rfl

/-- A recipient resolving to `"Maker: Proxy Registry"` short-circuits
contract decomposition: the result comes back with only `contract` set. -/
lemma pct_registry (e : TransactionExplorer) (row : SummaryRow) (tx : RawTx)
    (r0 : TransactionResult)
    (h : e.address_book.lookup tx.toAddr = some "Maker: Proxy Registry") :
    e.process_contract_transaction row tx r0 =
      .ok { r0 with contract := "Maker: Proxy Registry" } := by
  unfold TransactionExplorer.process_contract_transaction
  simp only [dictGet, h]
  rw [except_bind_ok]
  rw [if_pos rfl]

/-- A truthy `isError` field short-circuits contract decomposition right
after the function name is extracted: the result comes back with
`error := true` and its movement lists untouched. -/
lemma pct_isError (e : TransactionExplorer) (row : SummaryRow) (tx : RawTx)
    (r0 : TransactionResult) (cn : String) (k : Int)
    (hbook : e.address_book.lookup tx.toAddr = some cn)
    (hreg : cn ≠ "Maker: Proxy Registry")
    (hk : pyInt? tx.isError = some k) (hkpos : k > 0) :
    e.process_contract_transaction row tx r0 =
      .ok { r0 with contract := cn, function := splitHead '(' tx.functionName,
                    error := true } := by
  unfold TransactionExplorer.process_contract_transaction
  simp only [dictGet, hbook]
  rw [except_bind_ok]
  rw [if_neg hreg]
  simp only [pyIntE, hk]
  rw [except_bind_ok]
  rw [if_pos hkpos]

/-- Branch equation for contract decomposition in the main case: known
contract, not the registry, no error flag.  The ETH `value` outflow is
appended first when positive; then the primary token events, the primary
internal events, and the `dsKeep`-filtered proxy token events. -/
lemma pct_main (e : TransactionExplorer) (row : SummaryRow) (tx : RawTx)
    (r0 : TransactionResult) (cn : String) (k : Int) (v : ℚ)
    (hbook : e.address_book.lookup tx.toAddr = some cn)
    (hreg : cn ≠ "Maker: Proxy Registry")
    (hk : pyInt? tx.isError = some k) (hkle : ¬ k > 0)
    (hv : pyFloat? tx.value = some v) :
    e.process_contract_transaction row tx r0 =
      (let result1 : TransactionResult :=
        { r0 with contract := cn, function := splitHead '(' tx.functionName };
      let value : ℚ := v / (10 : ℚ) ^ (18 : ℕ);
      let result2 : TransactionResult :=
        if value > 0 then
          result1.add_eth_movement value
            (e.get_address_name tx.fromAddr) (e.get_address_name tx.toAddr)
        else result1;
      match mapExcept (normalizeTokenTx e)
          (token_txs_by_tx_hash e.address_data row.hash) with
      | .error err => .error err
      | .ok tms =>
        match mapExcept (normalizeInternalTx e)
            (internal_txs_by_tx_hash e.address_data row.hash) with
        | .error err => .error err
        | .ok ems =>
          match mapExcept (normalizeTokenTx e)
              (token_txs_by_tx_hash e.ds_proxy_data row.hash) with
          | .error err => .error err
          | .ok dms => .ok { result2 with
              tokens_movements :=
                (result2.tokens_movements ++ tms) ++ dms.filter dsKeep,
              eth_movements := result2.eth_movements ++ ems }) := by
  unfold TransactionExplorer.process_contract_transaction
  simp only [dictGet, hbook]
  rw [except_bind_ok]
  rw [if_neg hreg]
  simp only [pyIntE, hk]
  rw [except_bind_ok]
  rw [if_neg hkle]
  simp only [pyFloatE, hv]
  rw [except_bind_ok]
  rw [foldlM_token_movement_step]
  cases htm : mapExcept (normalizeTokenTx e)
      (token_txs_by_tx_hash e.address_data row.hash) with
  | error err => rfl
  | ok tms =>
    rw [except_bind_ok, foldlM_internal_movement_step]
    cases hem : mapExcept (normalizeInternalTx e)
        (internal_txs_by_tx_hash e.address_data row.hash) with
    | error err => rfl
    | ok ems =>
      rw [except_bind_ok, foldlM_ds_token_movement_step]
      cases hds : mapExcept (normalizeTokenTx e)
          (token_txs_by_tx_hash e.ds_proxy_data row.hash) with
      | error err => rfl
      | ok dms => rfl

/-- Failing `isError` parse aborts contract decomposition with `ValueError`. -/
lemma pct_isError_parse_fail (e : TransactionExplorer) (row : SummaryRow)
    (tx : RawTx) (r0 : TransactionResult) (cn : String)
    (hbook : e.address_book.lookup tx.toAddr = some cn)
    (hreg : cn ≠ "Maker: Proxy Registry")
    (hk : pyInt? tx.isError = none) :
    e.process_contract_transaction row tx r0 = .error PyErr.valueError := by
  unfold TransactionExplorer.process_contract_transaction
  simp only [dictGet, hbook]
  rw [except_bind_ok]
  rw [if_neg hreg]
  simp only [pyIntE, hk]
  rfl

/-- Failing `value` parse aborts contract decomposition with `ValueError`. -/
lemma pct_value_parse_fail (e : TransactionExplorer) (row : SummaryRow)
    (tx : RawTx) (r0 : TransactionResult) (cn : String) (k : Int)
    (hbook : e.address_book.lookup tx.toAddr = some cn)
    (hreg : cn ≠ "Maker: Proxy Registry")
    (hk : pyInt? tx.isError = some k) (hkle : ¬ k > 0)
    (hv : pyFloat? tx.value = none) :
    e.process_contract_transaction row tx r0 = .error PyErr.valueError := by
  unfold TransactionExplorer.process_contract_transaction
  simp only [dictGet, hbook]
  rw [except_bind_ok]
  rw [if_neg hreg]
  simp only [pyIntE, hk]
  rw [except_bind_ok]
  rw [if_neg hkle]
  simp only [pyFloatE, hv]
  rfl

/-- Branch equation for `process_transaction` when the ledger row claims a
normal event (`normal >= 1`) but no normal event with its hash exists: the
indexing `[... ][0]` fails (`IndexError`). -/
lemma process_transaction_no_normal (e : TransactionExplorer)
    (row : SummaryRow) (h1 : ¬ row.normal < 1)
    (hfil : e.address_data.txs.filter (fun a => a.hash == row.hash) = []) :
    e.process_transaction row = .error PyErr.indexError := by
  unfold TransactionExplorer.process_transaction
  rw [if_neg h1]
  dsimp only
  rw [hfil]

/-- Branch equation for `process_transaction` on a plain value transfer
(`input == "0x"` on the first normal event with the row's hash): a single
ETH movement of `value / 10 ** 18` and nothing else. -/
lemma process_transaction_plain (e : TransactionExplorer) (row : SummaryRow)
    (tx : RawTx) (rest : List RawTx) (v : ℚ) (h1 : ¬ row.normal < 1)
    (hfil : e.address_data.txs.filter (fun a => a.hash == row.hash) = tx :: rest)
    (hin : tx.input = "0x") (hv : pyFloat? tx.value = some v) :
    e.process_transaction row = .ok (some
      { hash := row.hash, ts := row.timestamp,
        from_address := e.get_address_name tx.fromAddr,
        to_address := e.get_address_name tx.toAddr,
        contract := "", function := "", external := false,
        eth_movements := [⟨"ETH", v / (10 : ℚ) ^ (18 : ℕ),
          e.get_address_name tx.fromAddr, e.get_address_name tx.toAddr⟩],
        tokens_movements := [], error := false }) := by
  unfold TransactionExplorer.process_transaction
  rw [if_neg h1]
  dsimp only
  rw [hfil]
  dsimp only
  rw [if_pos hin]
  simp only [pyFloatE, hv]
  rfl

/-- On a plain value transfer whose `value` does not parse, classification
aborts with `ValueError`. -/
lemma process_transaction_plain_fail (e : TransactionExplorer)
    (row : SummaryRow) (tx : RawTx) (rest : List RawTx) (h1 : ¬ row.normal < 1)
    (hfil : e.address_data.txs.filter (fun a => a.hash == row.hash) = tx :: rest)
    (hin : tx.input = "0x") (hv : pyFloat? tx.value = none) :
    e.process_transaction row = .error PyErr.valueError := by
  unfold TransactionExplorer.process_transaction
  rw [if_neg h1]
  dsimp only
  rw [hfil]
  dsimp only
  rw [if_pos hin]
  simp only [pyFloatE, hv]
  rfl

/-- Branch equation for `process_transaction` on a contract call whose
sender does not resolve to `"ADDRESS_OF_INTEREST"`: the result is returned
as-is, with only the resolved names set. -/
lemma process_transaction_not_aoi (e : TransactionExplorer) (row : SummaryRow)
    (tx : RawTx) (rest : List RawTx) (h1 : ¬ row.normal < 1)
    (hfil : e.address_data.txs.filter (fun a => a.hash == row.hash) = tx :: rest)
    (hin : tx.input ≠ "0x")
    (hfrom : e.get_address_name tx.fromAddr ≠ "ADDRESS_OF_INTEREST") :
    e.process_transaction row = .ok (some
      { hash := row.hash, ts := row.timestamp,
        from_address := e.get_address_name tx.fromAddr,
        to_address := e.get_address_name tx.toAddr,
        contract := "", function := "", external := false,
        eth_movements := [], tokens_movements := [], error := false }) := by
  unfold TransactionExplorer.process_transaction
  rw [if_neg h1]
  dsimp only
  rw [hfil]
  dsimp only
  rw [if_neg hin, if_neg hfrom]

/-- Branch equation for `process_transaction` on a contract call from the
address of interest to a recipient that is not a known contract: the bare
`return` — classification yields nothing, and no exception is raised. -/
lemma process_transaction_unknown_contract (e : TransactionExplorer)
    (row : SummaryRow) (tx : RawTx) (rest : List RawTx) (h1 : ¬ row.normal < 1)
    (hfil : e.address_data.txs.filter (fun a => a.hash == row.hash) = tx :: rest)
    (hin : tx.input ≠ "0x")
    (hfrom : e.get_address_name tx.fromAddr = "ADDRESS_OF_INTEREST")
    (hkc : e.known_contracts.lookup tx.toAddr = none) :
    e.process_transaction row = .ok none := by
  unfold TransactionExplorer.process_transaction
  rw [if_neg h1]
  dsimp only
  rw [hfil]
  dsimp only
  rw [if_neg hin, if_pos hfrom, if_pos (by simp [hkc])]

/-- Branch equation for `process_transaction` on a contract call from the
address of interest to a known contract: delegate to
`process_contract_transaction` on the result populated so far. -/
lemma process_transaction_contract (e : TransactionExplorer) (row : SummaryRow)
    (tx : RawTx) (rest : List RawTx) (h1 : ¬ row.normal < 1)
    (hfil : e.address_data.txs.filter (fun a => a.hash == row.hash) = tx :: rest)
    (hin : tx.input ≠ "0x")
    (hfrom : e.get_address_name tx.fromAddr = "ADDRESS_OF_INTEREST")
    (hkc : (e.known_contracts.lookup tx.toAddr).isSome) :
    e.process_transaction row =
      (e.process_contract_transaction row tx
        { hash := row.hash, ts := row.timestamp,
          from_address := e.get_address_name tx.fromAddr,
          to_address := e.get_address_name tx.toAddr,
          contract := "", function := "", external := false,
          eth_movements := [], tokens_movements := [], error := false }).map some := by
  unfold TransactionExplorer.process_transaction
  rw [if_neg h1]
  dsimp only
  rw [hfil]
  dsimp only
  rw [if_neg hin, if_pos hfrom,
    if_neg (by simp only [Option.isNone_iff_eq_none]; exact Option.isSome_iff_ne_none.mp hkc)]
  cases hres : e.process_contract_transaction row tx
      { hash := row.hash, ts := row.timestamp,
        from_address := e.get_address_name tx.fromAddr,
        to_address := e.get_address_name tx.toAddr,
        contract := "", function := "", external := false,
        eth_movements := [], tokens_movements := [], error := false } with
  | error err => rfl
  | ok r => rfl

lemma dedup_fst_not_mem : ∀ (l : List RawTx) (seen : List String)
    (p : String × Nat), p ∈ dedupByHash l seen → p.1 ∉ seen
  | [], _, p, hp => by simp [dedupByHash] at hp
  | tx :: rest, seen, p, hp => by
    by_cases htx : tx.hash ∈ seen
    · rw [dedupByHash, if_pos htx] at hp
      exact dedup_fst_not_mem rest seen p hp
    · rw [dedupByHash, if_neg htx] at hp
      rcases List.mem_cons.mp hp with rfl | hp'
      · exact htx
      · intro hmem
        exact dedup_fst_not_mem rest (tx.hash :: seen) p hp'
          (List.mem_cons_of_mem _ hmem)

lemma dedup_map_fst_nodup : ∀ (l : List RawTx) (seen : List String),
    ((dedupByHash l seen).map Prod.fst).Nodup
  | [], seen => by simp [dedupByHash]
  | tx :: rest, seen => by
    by_cases htx : tx.hash ∈ seen
    · rw [dedupByHash, if_pos htx]
      exact dedup_map_fst_nodup rest seen
    · rw [dedupByHash, if_neg htx]
      rw [List.map_cons]
      refine List.nodup_cons.mpr ⟨?_, dedup_map_fst_nodup rest (tx.hash :: seen)⟩
      intro hmem
      rcases List.mem_map.mp hmem with ⟨p, hp, hfst⟩
      apply dedup_fst_not_mem rest (tx.hash :: seen) p hp
      rw [hfst]
      exact List.mem_cons_self _ _

lemma dedup_mem_iff : ∀ (l : List RawTx) (seen : List String) (h : String),
    (∃ p ∈ dedupByHash l seen, p.1 = h) ↔
      ((∃ tx ∈ l, tx.hash = h) ∧ h ∉ seen)
  | [], seen, h => by simp [dedupByHash]
  | tx :: rest, seen, h => by
    by_cases htx : tx.hash ∈ seen
    · rw [dedupByHash, if_pos htx, dedup_mem_iff rest seen h]
      constructor
      · rintro ⟨⟨t, ht, rfl⟩, hns⟩
        exact ⟨⟨t, List.mem_cons_of_mem _ ht, rfl⟩, hns⟩
      · rintro ⟨⟨t, ht, rfl⟩, hns⟩
        rcases List.mem_cons.mp ht with rfl | ht'
        · exact absurd htx hns
        · exact ⟨⟨t, ht', rfl⟩, hns⟩
    · rw [dedupByHash, if_neg htx]
      constructor
      · rintro ⟨p, hp, hfst⟩
        rcases List.mem_cons.mp hp with rfl | hp'
        · exact ⟨⟨tx, List.mem_cons_self _ _, hfst⟩, hfst ▸ htx⟩
        · rcases (dedup_mem_iff rest (tx.hash :: seen) h).mp ⟨p, hp', hfst⟩
            with ⟨⟨t, ht, rfl⟩, hns⟩
          exact ⟨⟨t, List.mem_cons_of_mem _ ht, rfl⟩,
            fun hm => hns (List.mem_cons_of_mem _ hm)⟩
      · rintro ⟨⟨t, ht, rfl⟩, hns⟩
        rcases List.mem_cons.mp ht with rfl | ht'
        · exact ⟨(t.hash, t.timeStamp), List.mem_cons_self _ _, rfl⟩
        · by_cases heq : t.hash = tx.hash
          · exact ⟨(tx.hash, tx.timeStamp), List.mem_cons_self _ _, heq.symm⟩
          · have hmem : t.hash ∉ tx.hash :: seen := by
              intro hm
              rcases List.mem_cons.mp hm with hh | hh
              · exact heq hh
              · exact hns hh
            rcases (dedup_mem_iff rest (tx.hash :: seen) t.hash).mpr
                ⟨⟨t, ht', rfl⟩, hmem⟩ with ⟨p, hp, hfst⟩
            exact ⟨p, List.mem_cons_of_mem _ hp, hfst⟩

lemma dedup_first_seen : ∀ (l : List RawTx) (seen : List String)
    (p : String × Nat), p ∈ dedupByHash l seen →
    ∃ tx, l.find? (fun a => a.hash == p.1) = some tx ∧ tx.timeStamp = p.2
  | [], _, p, hp => by simp [dedupByHash] at hp
  | tx :: rest, seen, p, hp => by
    by_cases htx : tx.hash ∈ seen
    · rw [dedupByHash, if_pos htx] at hp
      have hnot := dedup_fst_not_mem rest seen p hp
      have hne : ¬ (tx.hash == p.1) = true := by
        simp only [beq_iff_eq]
        intro hh
        exact hnot (hh ▸ htx)
      rcases dedup_first_seen rest seen p hp with ⟨t, ht, hts⟩
      exact ⟨t, by
        rw [@List.find?_cons_of_neg _ (fun a => a.hash == p.1) tx rest hne]
        exact ht, hts⟩
    · rw [dedupByHash, if_neg htx] at hp
      rcases List.mem_cons.mp hp with rfl | hp'
      · exact ⟨tx, by rw [List.find?_cons_of_pos _ (by simp)], rfl⟩
      · have hnot := dedup_fst_not_mem rest (tx.hash :: seen) p hp'
        have hne : ¬ (tx.hash == p.1) = true := by
          simp only [beq_iff_eq]
          intro hh
          exact hnot (hh ▸ List.mem_cons_self _ _)
        rcases dedup_first_seen rest (tx.hash :: seen) p hp' with ⟨t, ht, hts⟩
        exact ⟨t, by
          rw [@List.find?_cons_of_neg _ (fun a => a.hash == p.1) tx rest hne]
          exact ht, hts⟩

lemma countFold_eq (cat : List RawTx) :
    ∀ (l : List RawTx) (tbl : String → Nat) (h : String),
    (l.foldl (fun acc tx => fun x =>
        if x = tx.hash then cat.countP (fun a => a.hash == tx.hash) else acc x)
      tbl) h
    = if l.any (fun tx => tx.hash == h) then
        cat.countP (fun a => a.hash == h)
      else tbl h
  | [], tbl, h => by simp
  | tx :: l, tbl, h => by
    rw [List.foldl_cons, countFold_eq cat l _ h]
    by_cases hany : l.any (fun tx => tx.hash == h)
    · simp [hany]
    · by_cases heq : h = tx.hash
      · subst heq
        simp [hany]
      · have hne : ¬ tx.hash = h := fun hh => heq hh.symm
        simp [hany, heq, hne]

/-- The count column for hash `h` after a category's count loop equals the
number of that category's events whose hash is `h`. -/
lemma countLoop_eq (cat : List RawTx) (h : String) :
    countLoop cat (fun _ => 0) h = cat.countP (fun a => a.hash == h) := by
  unfold countLoop
  rw [countFold_eq]
  by_cases hany : cat.any (fun tx => tx.hash == h)
  · rw [if_pos hany]
  · rw [if_neg hany]
    symm
    rw [List.countP_eq_zero]
    intro a ha hc
    exact hany (List.any_eq_true.mpr ⟨a, ha, hc⟩)

/-- C1 (counterexample to the claim as stated): for a ledger entry with
`normal_count = 0` whose hash carries one ERC-721 event and no ERC-20
event, classification succeeds with an empty `token_movements`, although
the combined ERC-20/721/1155 event list for the hash has one element — so
`token_movements` is not "exactly the normalized forms of all
token-category events (ERC-20, ERC-721 and ERC-1155)". -/
theorem C1_claim_counterexample :
    C1cexExp.process_transaction C1cexRow =
      .ok (some { hash := "0xc1", ts := 10, from_address := "",
                  to_address := "", contract := "", function := "",
                  external := true, eth_movements := [],
                  tokens_movements := [], error := false })
    ∧ ((C1cexData.token_txs ++ C1cexData.nft_txs ++ C1cexData.erc1155_txs).filter
        (fun a => a.hash == C1cexRow.hash)).length = 1 :=
  ⟨rfl, rfl⟩

/-- C1 (amended): for every ledger entry with `normal_count < 1`,
classification marks the result external with the name fields left empty,
sets `token_movements` to the normalized forms of exactly the ERC-20
events sharing the hash (ERC-721 and ERC-1155 events are not consulted),
sets `eth_movements` to the normalized internal events (value divided by
`10 ^ 18`), and returns with no further branching (a parse failure in
either loop aborts with `ValueError` instead). -/
theorem C1_external_inbound_amended (e : TransactionExplorer)
    (row : SummaryRow) (h : row.normal < 1) :
    e.process_transaction row =
      match mapExcept (normalizeTokenTx e)
          (token_txs_by_tx_hash e.address_data row.hash) with
      | .error err => .error err
      | .ok tms =>
        match mapExcept (normalizeInternalTx e)
            (internal_txs_by_tx_hash e.address_data row.hash) with
        | .error err => .error err
        | .ok ems => .ok (some
            { hash := row.hash, ts := row.timestamp,
              from_address := "", to_address := "",
              contract := "", function := "", external := true,
              eth_movements := ems, tokens_movements := tms,
              error := false }) :=
  process_transaction_external e row h

/-- C1 witness: the amended statement evaluated on a concrete entry with
one ERC-20 and one internal event. -/
theorem C1_external_inbound_amended_witness :
    C1wExp.process_transaction C1wRow =
      match mapExcept (normalizeTokenTx C1wExp)
          (token_txs_by_tx_hash C1wExp.address_data C1wRow.hash) with
      | .error err => .error err
      | .ok tms =>
        match mapExcept (normalizeInternalTx C1wExp)
            (internal_txs_by_tx_hash C1wExp.address_data C1wRow.hash) with
        | .error err => .error err
        | .ok ems => .ok (some
            { hash := C1wRow.hash, ts := C1wRow.timestamp,
              from_address := "", to_address := "",
              contract := "", function := "", external := true,
              eth_movements := ems, tokens_movements := tms,
              error := false }) :=
  C1_external_inbound_amended C1wExp C1wRow (by decide)

/-- C3: a ledger entry whose first normal event has `input = "0x"` yields
immediately a result with exactly one ETH movement of `value / 10 ^ 18`
between the resolved names and no token movements, whatever token or
internal events share the hash. -/
theorem C3_plain_transfer (e : TransactionExplorer) (row : SummaryRow)
    (tx : RawTx) (rest : List RawTx) (v : ℚ) (h1 : ¬ row.normal < 1)
    (hfil : e.address_data.txs.filter (fun a => a.hash == row.hash) = tx :: rest)
    (hin : tx.input = "0x") (hv : pyFloat? tx.value = some v) :
    e.process_transaction row = .ok (some
      { hash := row.hash, ts := row.timestamp,
        from_address := e.get_address_name tx.fromAddr,
        to_address := e.get_address_name tx.toAddr,
        contract := "", function := "", external := false,
        eth_movements := [⟨"ETH", v / (10 : ℚ) ^ (18 : ℕ),
          e.get_address_name tx.fromAddr, e.get_address_name tx.toAddr⟩],
        tokens_movements := [], error := false }) :=
  process_transaction_plain e row tx rest v h1 hfil hin hv

/-- C3 witness: a plain transfer of `value = "2000000000000000000"` wei,
with an ERC-20 event sharing the hash, yields the single ETH movement (of
exactly 2 ETH, see the trailing equation) and no token movements. -/
theorem C3_plain_transfer_witness :
    (C3exp.process_transaction C3row = .ok (some
      { hash := "0xc3", ts := 40, from_address := "0xme",
        to_address := "0xyou", contract := "", function := "",
        external := false,
        eth_movements := [⟨"ETH",
          ratOfLit (2000000000000000000, 0) / (10 : ℚ) ^ (18 : ℕ),
          "0xme", "0xyou"⟩],
        tokens_movements := [], error := false }))
    ∧ ratOfLit (2000000000000000000, 0) / (10 : ℚ) ^ (18 : ℕ) = 2 :=
  ⟨C3_plain_transfer C3exp C3row C3tx [] (ratOfLit (2000000000000000000, 0))
      (by decide) rfl rfl rfl,
   by norm_num [ratOfLit]⟩

/-- C6: a contract call from the address of interest whose recipient is
not in the known-contracts table makes classification return nothing
(`none`) for that transaction — the bare `return`; no exception is raised,
so processing of other transactions is unaffected. -/
theorem C6_unknown_contract (e : TransactionExplorer) (row : SummaryRow)
    (tx : RawTx) (rest : List RawTx) (h1 : ¬ row.normal < 1)
    (hfil : e.address_data.txs.filter (fun a => a.hash == row.hash) = tx :: rest)
    (hin : tx.input ≠ "0x")
    (hfrom : e.get_address_name tx.fromAddr = "ADDRESS_OF_INTEREST")
    (hkc : e.known_contracts.lookup tx.toAddr = none) :
    e.process_transaction row = .ok none :=
  process_transaction_unknown_contract e row tx rest h1 hfil hin hfrom hkc

/-- C6 witness: the unknown-contract branch evaluated on a concrete call. -/
theorem C6_unknown_contract_witness :
    C6exp.process_transaction C6row = .ok none :=
  C6_unknown_contract C6exp C6row C6tx [] (by decide) rfl (by decide) rfl rfl

/-- C8: a ledger entry with `normal >= 1` whose hash matches no raw normal
event makes classification fail (the `[...][0]` indexing raises; the spec
names this failure `InconsistentLedgerError`); no result is produced for
that transaction. -/
theorem C8_inconsistent_ledger (e : TransactionExplorer) (row : SummaryRow)
    (h1 : ¬ row.normal < 1)
    (hfil : e.address_data.txs.filter (fun a => a.hash == row.hash) = []) :
    e.process_transaction row = .error PyErr.indexError :=
  process_transaction_no_normal e row h1 hfil

/-- C8 witness: a row claiming one normal event over an empty store. -/
theorem C8_inconsistent_ledger_witness :
    C8exp.process_transaction C8row = .error PyErr.indexError :=
  C8_inconsistent_ledger C8exp C8row (by decide) rfl

/-- C4 (counterexample to the claim as stated): with the recipient present
in the known-contracts table (as the registry, even) but absent from the
address book, the `contract_name` lookup — which reads the address book,
not the known-contracts table — fails with a `KeyError`, so the lookup can
fail despite the known-contracts membership check of the previous step. -/
theorem C4_claim_counterexample :
    C4cexExp.process_transaction C4row = .error PyErr.keyError
    ∧ (C4cexExp.known_contracts.lookup C4tx.toAddr).isSome = true :=
  ⟨rfl, rfl⟩

/-- C4 (amended): `contract_name` is resolved from the address book by the
recipient address; the lookup fails with `KeyError` when the recipient is
missing there (membership in the known-contracts table does not help), and
when it resolves to `"Maker: Proxy Registry"` the result is returned with
only `contract` set: no movements appended, no function name extracted,
`is_error` unchanged. -/
theorem C4_contract_name_amended (e : TransactionExplorer) (row : SummaryRow)
    (tx : RawTx) (r0 : TransactionResult) :
    (e.address_book.lookup tx.toAddr = none →
      e.process_contract_transaction row tx r0 = .error PyErr.keyError)
    ∧ (e.address_book.lookup tx.toAddr = some "Maker: Proxy Registry" →
      e.process_contract_transaction row tx r0 =
        .ok { r0 with contract := "Maker: Proxy Registry" }) :=
  ⟨fun h => pct_keyError e row tx r0 h, fun h => pct_registry e row tx r0 h⟩

/-- C4 witness: both halves of the amended statement at concrete inputs. -/
theorem C4_contract_name_amended_witness :
    C4cexExp.process_contract_transaction C4row C4tx C4r0 = .error PyErr.keyError
    ∧ C4wExp.process_contract_transaction C4row C4tx C4r0 =
        .ok { C4r0 with contract := "Maker: Proxy Registry" } :=
  ⟨(C4_contract_name_amended C4cexExp C4row C4tx C4r0).1 rfl,
   (C4_contract_name_amended C4wExp C4row C4tx C4r0).2 rfl⟩

/-- C9 (counterexample to the claim as stated): a token event with an
unparseable `tokenDecimal` does not get skipped with the rest of the
transaction's classification continuing — the whole classification aborts
with `ValueError` and no result (so nothing is "flagged in the result");
and a `value` that is not parseable as an integer but is a float literal
(`"1.5"`) normalizes successfully rather than failing. -/
theorem C9_claim_counterexample :
    C9exp.process_transaction C9row = .error PyErr.valueError
    ∧ normalizeTokenTx C9exp C9t15 =
        .ok ⟨"TKN", ratOfLit (15, -1) / (10 : ℚ) ^ ((0 : ℕ) : ℤ),
             "0xa", "0xb"⟩ :=
  ⟨rfl, rfl⟩

/-- The only failure internal-event normalization can produce is
`ValueError`. -/
lemma normalizeInternalTx_error (e : TransactionExplorer) (t : RawTx)
    (err : PyErr) (h : normalizeInternalTx e t = .error err) :
    err = PyErr.valueError := by
  unfold normalizeInternalTx pyFloatE at h
  cases hv : pyFloat? t.value with
  | none => rw [hv] at h; cases h; rfl
  | some v => rw [hv] at h; cases h

/-- An unparseable `value` makes internal-event normalization fail with
`ValueError`. -/
lemma normalizeInternalTx_error_of (e : TransactionExplorer) (t : RawTx)
    (h : pyFloat? t.value = none) :
    normalizeInternalTx e t = .error PyErr.valueError := by
  unfold normalizeInternalTx pyFloatE
  rw [h]

/-- A failing token-normalization sequence can only fail with `ValueError`. -/
lemma mapExcept_token_error_only (e : TransactionExplorer) :
    ∀ (l : List RawTx) (err : PyErr),
    mapExcept (normalizeTokenTx e) l = .error err → err = PyErr.valueError
  | [], err, h => by simp [mapExcept] at h
  | a :: l, err, h => by
    cases hna : normalizeTokenTx e a with
    | error e1 =>
      simp only [mapExcept, hna] at h
      cases h
      exact normalizeTokenTx_error e a _ hna
    | ok m =>
      cases hml : mapExcept (normalizeTokenTx e) l with
      | error e1 =>
        simp only [mapExcept, hna, hml] at h
        cases h
        exact mapExcept_token_error_only e l _ hml
      | ok ms =>
        simp only [mapExcept, hna, hml] at h
        cases h

/-- A failing internal-normalization sequence can only fail with
`ValueError`. -/
lemma mapExcept_internal_error_only (e : TransactionExplorer) :
    ∀ (l : List RawTx) (err : PyErr),
    mapExcept (normalizeInternalTx e) l = .error err → err = PyErr.valueError
  | [], err, h => by simp [mapExcept] at h
  | a :: l, err, h => by
    cases hna : normalizeInternalTx e a with
    | error e1 =>
      simp only [mapExcept, hna] at h
      cases h
      exact normalizeInternalTx_error e a _ hna
    | ok m =>
      cases hml : mapExcept (normalizeInternalTx e) l with
      | error e1 =>
        simp only [mapExcept, hna, hml] at h
        cases h
        exact mapExcept_internal_error_only e l _ hml
      | ok ms =>
        simp only [mapExcept, hna, hml] at h
        cases h

/-- A single failing internal normalization makes the whole sequence fail
with `ValueError`. -/
lemma mapExcept_internal_error (e : TransactionExplorer) :
    ∀ (l : List RawTx),
    (∃ t ∈ l, ∃ err, normalizeInternalTx e t = .error err) →
    mapExcept (normalizeInternalTx e) l = .error PyErr.valueError
  | [], h => by simp at h
  | a :: l, h => by
    cases hna : normalizeInternalTx e a with
    | error err =>
      have := normalizeInternalTx_error e a err hna
      subst this
      simp only [mapExcept, hna]
    | ok m =>
      rcases h with ⟨t, ht, err, herr⟩
      rcases List.mem_cons.mp ht with rfl | ht1
      · rw [hna] at herr; cases herr
      · have := mapExcept_internal_error e l ⟨t, ht1, err, herr⟩
        simp only [mapExcept, hna, this]

/-- A malformed event within reach of one of the three loops of contract
decomposition aborts the decomposition with `ValueError`, once the main
branch has been entered (known contract, not the registry, no error flag,
parseable call value). -/
lemma pct_malformed_aborts (e : TransactionExplorer) (row : SummaryRow)
    (t tx : RawTx) (r0 : TransactionResult) (cn : String) (k : Int) (v : ℚ)
    (hbook : e.address_book.lookup tx.toAddr = some cn)
    (hreg : cn ≠ "Maker: Proxy Registry")
    (hk : pyInt? tx.isError = some k) (hkle : ¬ k > 0)
    (hv : pyFloat? tx.value = some v)
    (hbad : (t ∈ token_txs_by_tx_hash e.address_data row.hash
              ∧ (pyFloat? t.value = none ∨ pyInt? t.tokenDecimal = none))
          ∨ (t ∈ internal_txs_by_tx_hash e.address_data row.hash
              ∧ pyFloat? t.value = none)
          ∨ (t ∈ token_txs_by_tx_hash e.ds_proxy_data row.hash
              ∧ (pyFloat? t.value = none ∨ pyInt? t.tokenDecimal = none))) :
    e.process_contract_transaction row tx r0 = .error PyErr.valueError := by
  rw [pct_main e row tx r0 cn k v hbook hreg hk hkle hv]
  dsimp only
  rcases hbad with ⟨ht, hp⟩ | ⟨ht, hp⟩ | ⟨ht, hp⟩
  · rw [mapExcept_token_error e _
      ⟨t, ht, PyErr.valueError, normalizeTokenTx_error_of e t hp⟩]
  · cases htm : mapExcept (normalizeTokenTx e)
        (token_txs_by_tx_hash e.address_data row.hash) with
    | error err =>
      rw [mapExcept_token_error_only e _ err htm]
    | ok tms =>
      rw [mapExcept_internal_error e _
        ⟨t, ht, PyErr.valueError, normalizeInternalTx_error_of e t hp⟩]
  · cases htm : mapExcept (normalizeTokenTx e)
        (token_txs_by_tx_hash e.address_data row.hash) with
    | error err =>
      rw [mapExcept_token_error_only e _ err htm]
    | ok tms =>
      cases hem : mapExcept (normalizeInternalTx e)
          (internal_txs_by_tx_hash e.address_data row.hash) with
      | error err =>
        rw [mapExcept_internal_error_only e _ err hem]
      | ok ems =>
        rw [mapExcept_token_error e _
          ⟨t, ht, PyErr.valueError, normalizeTokenTx_error_of e t hp⟩]

/-- C9 (amended): a raw event whose `value` fails to parse as a float
literal - or, for token events, whose `tokenDecimal` fails to parse as an
integer - makes its normalization fail with `ValueError` (parts 1 and 2),
and that failure is not recoverable at movement granularity: it aborts the
whole transaction's classification, in the external-inbound branch (part
3: `process_transaction` returns the error and no result) just as inside
contract decomposition, whose token, internal and proxy-token loops all
abort the same way (part 4); nothing is skipped and no flag is set in any
returned result. -/
theorem C9_malformed_amount_amended (e : TransactionExplorer)
    (row : SummaryRow) (t : RawTx) :
    ((pyFloat? t.value = none ∨ pyInt? t.tokenDecimal = none) →
      normalizeTokenTx e t = .error PyErr.valueError)
    ∧ (pyFloat? t.value = none →
      normalizeInternalTx e t = .error PyErr.valueError)
    ∧ (row.normal < 1 →
      ((t ∈ token_txs_by_tx_hash e.address_data row.hash
          ∧ (pyFloat? t.value = none ∨ pyInt? t.tokenDecimal = none))
        ∨ (t ∈ internal_txs_by_tx_hash e.address_data row.hash
            ∧ pyFloat? t.value = none)) →
      e.process_transaction row = .error PyErr.valueError)
    ∧ (∀ (tx : RawTx) (r0 : TransactionResult) (cn : String) (k : Int)
        (v : ℚ),
      e.address_book.lookup tx.toAddr = some cn →
      cn ≠ "Maker: Proxy Registry" →
      pyInt? tx.isError = some k → ¬ k > 0 →
      pyFloat? tx.value = some v →
      ((t ∈ token_txs_by_tx_hash e.address_data row.hash
          ∧ (pyFloat? t.value = none ∨ pyInt? t.tokenDecimal = none))
        ∨ (t ∈ internal_txs_by_tx_hash e.address_data row.hash
            ∧ pyFloat? t.value = none)
        ∨ (t ∈ token_txs_by_tx_hash e.ds_proxy_data row.hash
            ∧ (pyFloat? t.value = none ∨ pyInt? t.tokenDecimal = none))) →
      e.process_contract_transaction row tx r0 = .error PyErr.valueError) := by
  refine ⟨normalizeTokenTx_error_of e t,
    normalizeInternalTx_error_of e t, ?_, ?_⟩
  · intro h1 hbad
    rw [process_transaction_external e row h1]
    rcases hbad with ⟨ht, hp⟩ | ⟨ht, hp⟩
    · rw [mapExcept_token_error e _
        ⟨t, ht, PyErr.valueError, normalizeTokenTx_error_of e t hp⟩]
    · cases htm : mapExcept (normalizeTokenTx e)
          (token_txs_by_tx_hash e.address_data row.hash) with
      | error err =>
        rw [mapExcept_token_error_only e _ err htm]
      | ok tms =>
        rw [mapExcept_internal_error e _
          ⟨t, ht, PyErr.valueError, normalizeInternalTx_error_of e t hp⟩]
  · intro tx r0 cn k v hbook hreg hk hkle hv hbad
    exact pct_malformed_aborts e row t tx r0 cn k v hbook hreg hk hkle hv hbad

/-- C9 witness: the amended statement exercised on concrete events - the
malformed token event aborts both the external-inbound classification and
a contract decomposition whose primary token loop reaches it, and an
internal event with unparseable `value` fails to normalize. -/
theorem C9_malformed_amount_amended_witness :
    normalizeTokenTx C9exp C9bad = .error PyErr.valueError
    ∧ C9exp.process_transaction C9row = .error PyErr.valueError
    ∧ C9pctExp.process_contract_transaction C9row C9tx2 C9r0 =
        .error PyErr.valueError
    ∧ normalizeInternalTx C9exp C9badv = .error PyErr.valueError :=
  ⟨(C9_malformed_amount_amended C9exp C9row C9bad).1 (Or.inr rfl),
   (C9_malformed_amount_amended C9exp C9row C9bad).2.2.1 (by decide)
     (Or.inl ⟨by decide, Or.inr rfl⟩),
   (C9_malformed_amount_amended C9pctExp C9row C9bad).2.2.2 C9tx2 C9r0 "C" 0
     (ratOfLit (0, 0)) rfl (by decide) rfl (by decide) rfl
     (Or.inl ⟨by decide, Or.inr rfl⟩),
   (C9_malformed_amount_amended C9exp C9row C9badv).2.1 rfl⟩

/-- C10: a plain transfer (`input = "0x"`) with `value = "0"` still yields
exactly one ETH movement, of amount `0`, between the resolved names —
zero-value transfers are recorded, not suppressed. -/
theorem C10_zero_value_transfer (e : TransactionExplorer) (row : SummaryRow)
    (tx : RawTx) (rest : List RawTx) (h1 : ¬ row.normal < 1)
    (hfil : e.address_data.txs.filter (fun a => a.hash == row.hash) = tx :: rest)
    (hin : tx.input = "0x") (hzero : tx.value = "0") :
    e.process_transaction row = .ok (some
      { hash := row.hash, ts := row.timestamp,
        from_address := e.get_address_name tx.fromAddr,
        to_address := e.get_address_name tx.toAddr,
        contract := "", function := "", external := false,
        eth_movements := [⟨"ETH", 0,
          e.get_address_name tx.fromAddr, e.get_address_name tx.toAddr⟩],
        tokens_movements := [], error := false }) := by
  have h0 : ratOfLit (0, 0) = 0 := by norm_num [ratOfLit]
  have hv : pyFloat? tx.value = some (0 : ℚ) := by
    rw [hzero]
    rw [show pyFloat? "0" = some (ratOfLit (0, 0)) from rfl, h0]
  rw [process_transaction_plain e row tx rest 0 h1 hfil hin hv]
  norm_num

/-- C10 witness: a concrete zero-value plain transfer. -/
theorem C10_zero_value_transfer_witness :
    C10exp.process_transaction C10row = .ok (some
      { hash := "0xca", ts := 100, from_address := "Alice",
        to_address := "0xyou", contract := "", function := "",
        external := false,
        eth_movements := [⟨"ETH", 0, "Alice", "0xyou"⟩],
        tokens_movements := [], error := false }) :=
  C10_zero_value_transfer C10exp C10row C10tx [] (by decide) rfl rfl rfl

/-- C2: in contract decomposition (known contract, not the registry, no
error flag, all numeric fields parseable), every primary-address token
event for the hash is appended to `token_movements`, while a proxy-address
token event is appended exactly when the skip test keeps it — i.e. it is
omitted exactly when its resolved sender name or resolved recipient name
equals `"ADDRESS_OF_INTEREST"`. -/
theorem C2_proxy_token_filter (e : TransactionExplorer) (row : SummaryRow)
    (tx : RawTx) (r0 : TransactionResult) (cn : String) (k : Int) (v : ℚ)
    (hbook : e.address_book.lookup tx.toAddr = some cn)
    (hreg : cn ≠ "Maker: Proxy Registry")
    (hk : pyInt? tx.isError = some k) (hkle : ¬ k > 0)
    (hv : pyFloat? tx.value = some v)
    (hptok : ∀ t ∈ token_txs_by_tx_hash e.address_data row.hash,
      (pyFloat? t.value).isSome ∧ (pyInt? t.tokenDecimal).isSome)
    (hpint : ∀ t ∈ internal_txs_by_tx_hash e.address_data row.hash,
      (pyFloat? t.value).isSome)
    (hpds : ∀ t ∈ token_txs_by_tx_hash e.ds_proxy_data row.hash,
      (pyFloat? t.value).isSome ∧ (pyInt? t.tokenDecimal).isSome) :
    ∃ res, e.process_contract_transaction row tx r0 = .ok res ∧
      res.tokens_movements =
        r0.tokens_movements
          ++ (token_txs_by_tx_hash e.address_data row.hash).map (normTokenD e)
          ++ ((token_txs_by_tx_hash e.ds_proxy_data row.hash).filter
                (fun t => dsKeep (normTokenD e t))).map (normTokenD e) := by
  rw [pct_main e row tx r0 cn k v hbook hreg hk hkle hv]
  dsimp only
  rw [mapExcept_token_ok e _ hptok, mapExcept_internal_ok e _ hpint,
    mapExcept_token_ok e _ hpds]
  refine ⟨_, rfl, ?_⟩
  have hres2 : ∀ (c : Prop) [Decidable c] (r1 : TransactionResult) (q f t),
      (if c then r1.add_eth_movement q f t else r1).tokens_movements
        = r1.tokens_movements := by
    intro c hc r1 q f t
    by_cases h : c
    · rw [if_pos h]; rfl
    · rw [if_neg h]
  rw [List.filter_map]
  simp only [hres2, List.append_assoc]
  rfl

/-- C2 witness: a concrete decomposition in which the proxy event whose
sender resolves to `"ADDRESS_OF_INTEREST"` is dropped while the
third-party proxy event and the primary event are kept. -/
theorem C2_proxy_token_filter_witness :
    ∃ res, C2exp.process_contract_transaction C2row C2tx C2r0 = .ok res ∧
      res.tokens_movements =
        C2r0.tokens_movements
          ++ (token_txs_by_tx_hash C2exp.address_data C2row.hash).map
              (normTokenD C2exp)
          ++ ((token_txs_by_tx_hash C2exp.ds_proxy_data C2row.hash).filter
                (fun t => dsKeep (normTokenD C2exp t))).map (normTokenD C2exp) :=
  C2_proxy_token_filter C2exp C2row C2tx C2r0 "SomeContract" 0
    (ratOfLit (0, 0)) rfl (by decide) rfl (by decide) rfl
    (by decide) (by decide) (by decide)

/-- If contract decomposition succeeds with the error flag set, the only
possible exit is the `isError` short-circuit, which leaves the movement
lists exactly as they were passed in. -/
lemma pct_ok_error (e : TransactionExplorer) (row : SummaryRow) (tx : RawTx)
    (r0 res : TransactionResult)
    (hres : e.process_contract_transaction row tx r0 = .ok res)
    (herr : res.error = true) (hr0 : r0.error = false) :
    res.eth_movements = r0.eth_movements
    ∧ res.tokens_movements = r0.tokens_movements := by
  cases hbook : e.address_book.lookup tx.toAddr with
  | none =>
    rw [pct_keyError e row tx r0 hbook] at hres
    cases hres
  | some cn =>
    by_cases hreg : cn = "Maker: Proxy Registry"
    · subst hreg
      rw [pct_registry e row tx r0 hbook] at hres
      simp only [Except.ok.injEq] at hres
      subst hres
      simp only [hr0] at herr
      cases herr
    · cases hk : pyInt? tx.isError with
      | none =>
        rw [pct_isError_parse_fail e row tx r0 cn hbook hreg hk] at hres
        cases hres
      | some k =>
        by_cases hkpos : k > 0
        · rw [pct_isError e row tx r0 cn k hbook hreg hk hkpos] at hres
          simp only [Except.ok.injEq] at hres
          subst hres
          exact ⟨rfl, rfl⟩
        · cases hv : pyFloat? tx.value with
          | none =>
            rw [pct_value_parse_fail e row tx r0 cn k hbook hreg hk hkpos hv]
              at hres
            cases hres
          | some v =>
            rw [pct_main e row tx r0 cn k v hbook hreg hk hkpos hv] at hres
            dsimp only at hres
            cases htm : mapExcept (normalizeTokenTx e)
                (token_txs_by_tx_hash e.address_data row.hash) with
            | error err => rw [htm] at hres; simp at hres
            | ok tms =>
              rw [htm] at hres
              cases hem : mapExcept (normalizeInternalTx e)
                  (internal_txs_by_tx_hash e.address_data row.hash) with
              | error err => rw [hem] at hres; simp at hres
              | ok ems =>
                rw [hem] at hres
                cases hds : mapExcept (normalizeTokenTx e)
                    (token_txs_by_tx_hash e.ds_proxy_data row.hash) with
                | error err => rw [hds] at hres; simp at hres
                | ok dms =>
                  rw [hds] at hres
                  simp only [Except.ok.injEq] at hres
                  subst hres
                  exfalso
                  by_cases hc : (0 : ℚ) < v / (10 : ℚ) ^ (18 : ℕ)
                  · simp only [gt_iff_lt, if_pos hc,
                      TransactionResult.add_eth_movement, hr0] at herr
                    cases herr
                  · simp only [gt_iff_lt, if_neg hc, hr0] at herr
                    cases herr

/-- C5: whenever classification returns a result whose `is_error` flag is
set, both movement lists are empty — in particular a contract call with a
truthy `isError` short-circuits before extracting any movement. -/
theorem C5_error_implies_no_movements (e : TransactionExplorer)
    (row : SummaryRow) (r : TransactionResult)
    (h : e.process_transaction row = .ok (some r)) (herr : r.error = true) :
    r.eth_movements = [] ∧ r.tokens_movements = [] := by
  by_cases hn : row.normal < 1
  · rw [process_transaction_external e row hn] at h
    cases htm : mapExcept (normalizeTokenTx e)
        (token_txs_by_tx_hash e.address_data row.hash) with
    | error err => rw [htm] at h; simp at h
    | ok tms =>
      rw [htm] at h
      cases hem : mapExcept (normalizeInternalTx e)
          (internal_txs_by_tx_hash e.address_data row.hash) with
      | error err => rw [hem] at h; simp at h
      | ok ems =>
        rw [hem] at h
        simp only [Except.ok.injEq, Option.some.injEq] at h
        subst h
        simp at herr
  · cases hfil : e.address_data.txs.filter (fun a => a.hash == row.hash) with
    | nil =>
      rw [process_transaction_no_normal e row hn hfil] at h
      cases h
    | cons tx rest =>
      by_cases hin : tx.input = "0x"
      · cases hv : pyFloat? tx.value with
        | none =>
          rw [process_transaction_plain_fail e row tx rest hn hfil hin hv] at h
          cases h
        | some v =>
          rw [process_transaction_plain e row tx rest v hn hfil hin hv] at h
          simp only [Except.ok.injEq, Option.some.injEq] at h
          subst h
          simp at herr
      · by_cases hfrom : e.get_address_name tx.fromAddr = "ADDRESS_OF_INTEREST"
        · cases hkc : e.known_contracts.lookup tx.toAddr with
          | none =>
            rw [process_transaction_unknown_contract e row tx rest hn hfil
              hin hfrom hkc] at h
            simp at h
          | some val =>
            have hkcs : (e.known_contracts.lookup tx.toAddr).isSome := by
              rw [hkc]; rfl
            rw [process_transaction_contract e row tx rest hn hfil hin hfrom
              hkcs] at h
            cases hres : e.process_contract_transaction row tx
                { hash := row.hash, ts := row.timestamp,
                  from_address := e.get_address_name tx.fromAddr,
                  to_address := e.get_address_name tx.toAddr,
                  contract := "", function := "", external := false,
                  eth_movements := [], tokens_movements := [],
                  error := false } with
            | error err => rw [hres] at h; simp [Except.map] at h
            | ok res =>
              rw [hres] at h
              simp only [Except.map, Except.ok.injEq, Option.some.injEq] at h
              subst h
              exact pct_ok_error e row tx _ res hres herr rfl
        · rw [process_transaction_not_aoi e row tx rest hn hfil hin hfrom] at h
          simp only [Except.ok.injEq, Option.some.injEq] at h
          subst h
          simp at herr

/-- C5 witness: a concrete contract call with `isError = "1"` yields the
error flag and empty movement lists. -/
theorem C5_error_implies_no_movements_witness :
    C5exp.process_transaction C5row = .ok (some C5res)
    ∧ (C5res.eth_movements = [] ∧ C5res.tokens_movements = []) :=
  ⟨rfl, C5_error_implies_no_movements C5exp C5row C5res rfl rfl⟩

/-- C7: the summary table has exactly one row per distinct hash (row hashes
are distinct, and a hash has a row exactly when some raw event carries it);
each row carries the timestamp of the first-seen event for its hash; rows
are sorted by non-decreasing timestamp; rows ordered in first-seen order
stay in that order whenever their timestamps allow it (stability, covering
ties); and every per-category count equals the number of that category's
raw events sharing the row's hash. -/
theorem C7_ledger_summary (d : EtherscanData) :
    (d.get_summary.map (fun r => r.hash)).Nodup
    ∧ (∀ h : String,
        (∃ r ∈ d.get_summary, r.hash = h) ↔ (∃ tx ∈ d.all_txs, tx.hash = h))
    ∧ (∀ r ∈ d.get_summary, ∃ tx,
        d.all_txs.find? (fun a => a.hash == r.hash) = some tx
        ∧ r.timestamp = tx.timeStamp)
    ∧ d.get_summary.Pairwise (fun a b => a.timestamp ≤ b.timestamp)
    ∧ (∀ p q : String × Nat, List.Sublist [p, q] (dedupByHash d.all_txs []) →
        p.2 ≤ q.2 → List.Sublist [mkRow d p, mkRow d q] d.get_summary)
    ∧ (∀ r ∈ d.get_summary,
        r.normal = d.txs.countP (fun a => a.hash == r.hash)
        ∧ r.has_internal = d.internal_txs.countP (fun a => a.hash == r.hash)
        ∧ r.erc20 = d.token_txs.countP (fun a => a.hash == r.hash)
        ∧ r.erc721 = d.nft_txs.countP (fun a => a.hash == r.hash)
        ∧ r.erc1155 = d.erc1155_txs.countP (fun a => a.hash == r.hash)) := by
  have htrans : ∀ (a b c : String × Nat),
      ((fun a b : String × Nat => (a.2 ≤ b.2 : Bool)) a b) →
      ((fun a b : String × Nat => (a.2 ≤ b.2 : Bool)) b c) →
      ((fun a b : String × Nat => (a.2 ≤ b.2 : Bool)) a c) := by
    intro a b c hab hbc
    simp only [decide_eq_true_eq] at *
    omega
  have htotal : ∀ (a b : String × Nat),
      ((fun a b : String × Nat => (a.2 ≤ b.2 : Bool)) a b
        || (fun a b : String × Nat => (a.2 ≤ b.2 : Bool)) b a) := by
    intro a b
    simp only [Bool.or_eq_true, decide_eq_true_eq]
    omega
  simp only [EtherscanData.get_summary]
  refine ⟨?_, ?_, ?_, ?_, ?_, ?_⟩
  · rw [List.map_map]
    have hperm := (List.mergeSort_perm (dedupByHash d.all_txs [])
      (fun a b => a.2 ≤ b.2)).map ((fun r => r.hash) ∘ mkRow d)
    exact hperm.nodup_iff.mpr (dedup_map_fst_nodup d.all_txs [])
  · intro h
    constructor
    · rintro ⟨r, hr, rfl⟩
      rcases List.mem_map.mp hr with ⟨p, hp, rfl⟩
      have hpd : p ∈ dedupByHash d.all_txs [] := List.mem_mergeSort.mp hp
      exact ((dedup_mem_iff d.all_txs [] p.1).mp ⟨p, hpd, rfl⟩).1
    · rintro ⟨tx, htx, rfl⟩
      rcases (dedup_mem_iff d.all_txs [] tx.hash).mpr
        ⟨⟨tx, htx, rfl⟩, by simp⟩ with ⟨p, hp, hfst⟩
      exact ⟨mkRow d p,
        List.mem_map_of_mem _ (List.mem_mergeSort.mpr hp), hfst⟩
  · rintro r hr
    rcases List.mem_map.mp hr with ⟨p, hp, rfl⟩
    have hpd := List.mem_mergeSort.mp hp
    rcases dedup_first_seen d.all_txs [] p hpd with ⟨tx, hfind, hts⟩
    exact ⟨tx, hfind, hts.symm⟩
  · have hs := List.sorted_mergeSort htrans htotal (dedupByHash d.all_txs [])
    refine List.Pairwise.map _ ?_ hs
    intro a b hab
    exact of_decide_eq_true hab
  · intro p q hsub hle
    have hab : (fun a b : String × Nat => (a.2 ≤ b.2 : Bool)) p q = true :=
      decide_eq_true hle
    exact (List.pair_sublist_mergeSort htrans htotal hab hsub).map (mkRow d)
  · rintro r hr
    rcases List.mem_map.mp hr with ⟨p, hp, rfl⟩
    exact ⟨countLoop_eq _ _, countLoop_eq _ _, countLoop_eq _ _,
      countLoop_eq _ _, countLoop_eq _ _⟩

/-- C7 witness: the per-category counts of the concrete single-row summary
(one normal and one ERC-20 event sharing the hash) as delivered by the
ledger theorem. -/
theorem C7_ledger_summary_witness :
    (mkRow C7data ("0xc7", 80)).normal
        = C7data.txs.countP
            (fun a => a.hash == (mkRow C7data ("0xc7", 80)).hash)
    ∧ (mkRow C7data ("0xc7", 80)).has_internal
        = C7data.internal_txs.countP
            (fun a => a.hash == (mkRow C7data ("0xc7", 80)).hash)
    ∧ (mkRow C7data ("0xc7", 80)).erc20
        = C7data.token_txs.countP
            (fun a => a.hash == (mkRow C7data ("0xc7", 80)).hash)
    ∧ (mkRow C7data ("0xc7", 80)).erc721
        = C7data.nft_txs.countP
            (fun a => a.hash == (mkRow C7data ("0xc7", 80)).hash)
    ∧ (mkRow C7data ("0xc7", 80)).erc1155
        = C7data.erc1155_txs.countP
            (fun a => a.hash == (mkRow C7data ("0xc7", 80)).hash) :=
  (C7_ledger_summary C7data).2.2.2.2.2 (mkRow C7data ("0xc7", 80))
    (by simp [EtherscanData.get_summary, EtherscanData.all_txs, C7data,
      dedupByHash])
